import Mathlib

/-!
Verification development for the upbit grid-trading automation core.

The definitions below are a shallow embedding of the Python source:
`src/core/strategies/grid_trading.py` (GridTradingStrategy),
`src/core/strategies/hybrid_grid.py` (HybridGridStrategy.check_breakout_exit),
`src/core/base_strategy.py` (is_trading_hours), and
`src/core/trader.py` (UnifiedTrader: can_trade, execute_buy, execute_sell,
analyze_market snapshot construction, run_backtest simulation loop).

Conventions of the embedding:
* money, prices, rates and timestamps are rationals; timestamps are in
  minutes, so `total_seconds() / 60` is the plain difference;
* a Python dict key that may be absent is an `Option`; `dict.get(k, d)`
  becomes `Option.getD`;
* Python float truthiness on always-present numeric keys (`if bb_upper`)
  becomes a `≠ 0` test;
* division is rational division (total, `x / 0 = 0`); no run modelled here
  divides by zero on the paths the theorems talk about;
* reason strings are replaced by an inductive `ExitReason` since only their
  identity matters.
-/

namespace UpbitGrid

/-- Closure kind, mirroring the `'TAKE_PROFIT'` / `'STOP_LOSS'` strings. -/
inductive ExitKind where
  | takeProfit
  | stopLoss
deriving DecidableEq, Repr, Inhabited

/-- Which exit test fired (the identity of the reason string returned by
`check_exit_conditions`, plus the forced period-end closure reason). -/
inductive ExitReason where
  | singleStop
  | gridTakeProfit
  | totalStop
  | nextGrid
  | spikeProfit
  | spikeLoss
  | longHold
  | periodEnd
deriving DecidableEq, Repr, Inhabited

/-- Hour-of-day policy of `BaseStrategy.is_trading_hours`
(`time_filter_mode`); `other` stands for any unrecognized mode string,
which falls through to 24-hour trading. -/
inductive TimeFilterMode where
  | optimal
  | safe
  | peak
  | custom
  | other
deriving DecidableEq, Repr, Inhabited

/-- Configuration as read by `GridTradingStrategy.__init__`,
`BaseStrategy.__init__` and `UnifiedTrader` (backtest mode), with the
source defaults.  `feeRate` is in percent, as in the source. -/
structure GridConfig where
  gridLevels : Nat := 5
  gridSpacing : ℚ := 1
  maxPositions : Nat := 3
  maxAtrThreshold : ℚ := 8/10
  singlePositionStopLoss : ℚ := -(3/2)
  totalStopLoss : ℚ := 0
  singleGridProfit : ℚ := 1
  longHoldMinutes : ℚ := 0
  longHoldLossThreshold : ℚ := -1
  gridResetHours : ℚ := 24
  bbWidthChangeThreshold : ℚ := 30
  useBBEntryFilter : Bool := true
  bbEntryPositionMax : ℚ := 2/5
  bbWidthMultiplierNarrow : ℚ := 1
  bbWidthMultiplierWide : ℚ := 3/2
  feeRate : ℚ := 1/20
  cooldownMinutes : ℚ := 0
  maxTradesPerDay : Option Nat := none
  tradeAmount : ℚ := 800000
  useTimeFilter : Bool := false
  timeFilterMode : TimeFilterMode := .optimal
  excludeWeekdays : List ℤ := []
  preferredWeekdays : Option (List ℤ) := none
  allowedHours : List ℤ := []
deriving DecidableEq, Repr, Inhabited

/-- Runtime grid state held on the strategy instance
(`grid_prices`, `base_price`, `grid_initialized_at`, `last_bb_width`). -/
structure GridState where
  gridPrices : List ℚ := []
  basePrice : Option ℚ := none
  initializedAt : Option ℚ := none
  lastBBWidth : Option ℚ := none
deriving DecidableEq, Repr, Inhabited

/-- An open position dict as built by the backtest branch of
`execute_buy` (only the fields the core logic reads back; the
entry-indicator fields stored for reporting are omitted).  `amount` is the
post-fee invested amount `amount - fee`, exactly as the source stores it. -/
structure Position where
  entryTime : ℚ
  entryPrice : ℚ
  amount : ℚ
  quantity : ℚ
  fee : ℚ
  entryGridLevel : ℤ
deriving DecidableEq, Repr, Inhabited

/-- A closed trade record as built by the backtest branch of
`execute_sell` (reporting-only indicator fields omitted). -/
structure Trade where
  timestamp : ℚ
  entryTime : ℚ
  entryPrice : ℚ
  exitPrice : ℚ
  profit : ℚ
  profitRate : ℚ
  holdingTime : ℚ
  reason : ExitReason
deriving DecidableEq, Repr, Inhabited

/-- The market-analysis dict produced by `UnifiedTrader.analyze_market`
in backtest mode, restricted to the keys the strategy reads.
`totalProfitRate` models the `'total_profit_rate'` key looked up by
`check_exit_conditions`; `analyze_market` never writes that key, which the
snapshot constructor below records by always setting it to `none`. -/
structure Snapshot where
  currentPrice : ℚ
  timestamp : ℚ
  atr : ℚ
  atrMa : ℚ
  bbUpper : ℚ
  bbLower : ℚ
  activePositions : Nat
  totalProfitRate : Option ℚ
deriving DecidableEq, Repr, Inhabited

/-- One candle tick of the backtest, carrying the indicator readings that
`analyze_market` would compute from the history up to this candle
(the indicator library itself is an external collaborator).  `dataOk`
models the warm-up guard `len(current_5m) < 30 or len(current_15m) < 30`
that skips early ticks. -/
structure Tick where
  timestamp : ℚ
  price : ℚ
  atr : ℚ := 0
  atrMa : ℚ := 0
  bbUpper : ℚ := 0
  bbLower : ℚ := 0
  dataOk : Bool := true
deriving DecidableEq, Repr, Inhabited

/-- Engine state of `UnifiedTrader` (backtest mode): capital, the open
position list, the trade history, the daily-count / cooldown bookkeeping,
and the strategy's grid state. -/
structure SimState where
  capital : ℚ := 1000000
  positions : List Position := []
  trades : List Trade := []
  todayTradeCount : Nat := 0
  lastTradeTime : Option ℚ := none
  currentDate : Option ℤ := none
  grid : GridState := {}
deriving DecidableEq, Repr, Inhabited

/-- The initial backtest state: `initial_capital = 1_000_000`, nothing
open, grid not yet initialized. -/
def initState : SimState := {}

/-- Calendar day of a timestamp (minutes since epoch). -/
def dateOf (ts : ℚ) : ℤ := ⌊ts / 1440⌋

/-- Hour of day of a timestamp (minutes since epoch). -/
def hourOf (ts : ℚ) : ℤ := ⌊ts / 60⌋ % 24

/-- Weekday of a timestamp (minutes since epoch), 0 = Monday. -/
def weekdayOf (ts : ℚ) : ℤ := ⌊ts / 1440⌋ % 7

/-- Insertion step of the ascending sort used for `grid_prices.sort()`. -/
def insertLe (x : ℚ) : List ℚ → List ℚ
  | [] => [x]
  | y :: ys => if x ≤ y then x :: y :: ys else y :: insertLe x ys

/-- Ascending sort of a price list, modelling Python `list.sort()`. -/
def sortLe : List ℚ → List ℚ
  | [] => []
  | x :: xs => insertLe x (sortLe xs)

/-- Price of the grid level with range index `j` (so the signed offset is
`i = j - levels // 2`): `current_price * (1 + i * spacing / 100)`. -/
def levelAt (cfg : GridConfig) (currentPrice : ℚ) (j : ℕ) : ℚ :=
  currentPrice * (1 + (((j : ℤ) - ((cfg.gridLevels / 2 : ℕ) : ℤ) : ℤ) : ℚ) * cfg.gridSpacing / 100)

/-- The level list built by `initialize_grid` before sorting:
`current_price * (1 + i * spacing / 100)` for
`i ∈ range(-(levels // 2), levels // 2 + 1)`. -/
def rawLevels (cfg : GridConfig) (currentPrice : ℚ) : List ℚ :=
  (List.range (2 * (cfg.gridLevels / 2) + 1)).map (levelAt cfg currentPrice)

/-- `GridTradingStrategy.initialize_grid`: set the base price and the
initialization time and rebuild the level list, sorted ascending.
`last_bb_width` is left untouched, as in the source. -/
def initializeGrid (cfg : GridConfig) (currentPrice ts : ℚ) (g : GridState) :
    GridState :=
  { g with
    basePrice := some currentPrice
    initializedAt := some ts
    gridPrices := sortLe (rawLevels cfg currentPrice) }

/-- First index minimizing `|level - price|` together with that level,
modelling `min(range(len(grid_prices)), key=...)` (ties go to the lowest
index). -/
def nearestPair (price : ℚ) : List ℚ → Option (ℕ × ℚ)
  | [] => none
  | x :: xs =>
    match nearestPair price xs with
    | none => some (0, x)
    | some (i, v) => if |x - price| ≤ |v - price| then some (0, x) else some (i + 1, v)

/-- `GridTradingStrategy.get_nearest_grid_level`: `(-1, 0.0)` when no grid
exists, otherwise the first nearest level. -/
def getNearestGridLevel (g : GridState) (price : ℚ) : ℤ × ℚ :=
  match nearestPair price g.gridPrices with
  | none => (-1, 0)
  | some (i, v) => ((i : ℤ), v)

/-- `GridTradingStrategy.check_bb_entry_condition`: dynamic Bollinger-band
entry filter.  Passes when disabled, when the band data is falsy or
degenerate (`upper ≤ lower`), or when the fractional band position does
not exceed the width-scaled ceiling (capped at 0.65). -/
def checkBBEntryCondition (cfg : GridConfig) (snap : Snapshot) : Bool :=
  if ¬ cfg.useBBEntryFilter then true
  else if snap.bbUpper = 0 ∨ snap.bbLower = 0 ∨ snap.bbUpper ≤ snap.bbLower then true
  else
    let bbPosition := (snap.currentPrice - snap.bbLower) / (snap.bbUpper - snap.bbLower)
    let bbWidthPct := (snap.bbUpper - snap.bbLower) / snap.currentPrice * 100
    let maxPosition :=
      if bbWidthPct < 4 then cfg.bbEntryPositionMax * cfg.bbWidthMultiplierNarrow
      else if bbWidthPct < 8 then cfg.bbEntryPositionMax * (5/4)
      else cfg.bbEntryPositionMax * cfg.bbWidthMultiplierWide
    let maxPosition := min maxPosition (13/20)
    ¬ (bbPosition > maxPosition)

/-- `GridTradingStrategy.should_reset_grid`: first-run / periodic /
band-width-change / price-escape triggers, evaluated in source order with
early returns.  Updating `last_bb_width` is a side effect of the width
check, so the (possibly updated) grid state is returned alongside the
decision. -/
def shouldResetGrid (cfg : GridConfig) (g : GridState) (snap : Snapshot) :
    Bool × GridState :=
  let periodicHit : Bool :=
    match g.initializedAt with
    | some t0 => decide (cfg.gridResetHours > 0 ∧ (snap.timestamp - t0) / 60 ≥ cfg.gridResetHours)
    | none => false
  if g.gridPrices = [] then (true, g)
  else if periodicHit then (true, g)
  else
    let bbStep : Bool × GridState :=
      if snap.bbUpper ≠ 0 ∧ snap.bbLower ≠ 0 then
        let w := (snap.bbUpper - snap.bbLower) / snap.currentPrice * 100
        match g.lastBBWidth with
        | some lw =>
          if |w - lw| / lw * 100 ≥ cfg.bbWidthChangeThreshold then
            (true, { g with lastBBWidth := some w })
          else (false, { g with lastBBWidth := some w })
        | none => (false, { g with lastBBWidth := some w })
      else (false, g)
    if bbStep.1 then (true, bbStep.2)
    else
      let minGrid := g.gridPrices.foldr min (g.gridPrices.headD 0)
      let maxGrid := g.gridPrices.foldr max (g.gridPrices.headD 0)
      if snap.currentPrice < minGrid * (85/100) ∨ snap.currentPrice > maxGrid * (115/100) then
        (true, bbStep.2)
      else (false, bbStep.2)

/-- `GridTradingStrategy.check_entry_conditions`: the composite entry gate
(position cap, volatility gate, Bollinger filter, grid reset side effect,
proximity window, lower-half check), returning the decision and the grid
state as mutated by the reset / width bookkeeping. -/
def checkEntryConditions (cfg : GridConfig) (g : GridState) (snap : Snapshot) :
    Bool × GridState :=
  if snap.activePositions ≥ cfg.maxPositions then (false, g)
  else if snap.atrMa > 0 ∧ snap.atr / snap.atrMa > cfg.maxAtrThreshold then (false, g)
  else if ¬ checkBBEntryCondition cfg snap then (false, g)
  else
    let reset := shouldResetGrid cfg g snap
    let g2 := if reset.1 then initializeGrid cfg snap.currentPrice snap.timestamp reset.2
              else reset.2
    let near := getNearestGridLevel g2 snap.currentPrice
    if near.1 < 0 then (false, g2)
    else
      let priceDiffPct := (snap.currentPrice - near.2) / near.2 * 100
      if ¬ (-(2/10) ≤ priceDiffPct ∧ priceDiffPct ≤ 1/10) then (false, g2)
      else if (near.1 : ℤ) > (g2.gridPrices.length / 2 : ℕ) then (false, g2)
      else (true, g2)

/-- `GridTradingStrategy.check_exit_conditions`: the six successive exit
tests in source order (individual stop-loss, individual take-profit,
portfolio stop via the `'total_profit_rate'` snapshot key, next grid
level, volatility spike, long-hold stop).  `none` means no exit. -/
def checkExitConditions (cfg : GridConfig) (g : GridState) (pos : Position)
    (snap : Snapshot) (holdingMinutes : ℚ) : Option (ExitKind × ExitReason) :=
  let profitRate := (snap.currentPrice - pos.entryPrice) / pos.entryPrice * 100
  if profitRate ≤ cfg.singlePositionStopLoss then some (.stopLoss, .singleStop)
  else if profitRate ≥ cfg.singleGridProfit then some (.takeProfit, .gridTakeProfit)
  else if (snap.totalProfitRate.getD 0) ≤ cfg.totalStopLoss ∧ cfg.totalStopLoss ≠ 0 then
    some (.stopLoss, .totalStop)
  else if pos.entryGridLevel ≥ 0 ∧ g.gridPrices ≠ [] ∧
      pos.entryGridLevel + 1 < (g.gridPrices.length : ℤ) ∧
      snap.currentPrice ≥ g.gridPrices.getD (pos.entryGridLevel + 1).toNat 0 then
    some (.takeProfit, .nextGrid)
  else if snap.atrMa > 0 ∧ snap.atr / snap.atrMa > 3/2 ∧ profitRate > 1/2 then
    some (.takeProfit, .spikeProfit)
  else if snap.atrMa > 0 ∧ snap.atr / snap.atrMa > 3/2 ∧ profitRate < -(3/10) then
    some (.takeProfit, .spikeLoss)
  else if cfg.longHoldMinutes > 0 ∧ holdingMinutes ≥ cfg.longHoldMinutes ∧
      profitRate < cfg.longHoldLossThreshold then
    some (.stopLoss, .longHold)
  else none

/-- `BaseStrategy.is_trading_hours`: weekday exclusions, preferred
weekdays, then the hour-of-day policy. -/
def isTradingHours (cfg : GridConfig) (ts : ℚ) : Bool :=
  if ¬ cfg.useTimeFilter then true
  else
    let hour := hourOf ts
    let weekday := weekdayOf ts
    let preferredMiss : Bool :=
      match cfg.preferredWeekdays with
      | some l => decide (weekday ∉ l)
      | none => false
    if weekday ∈ cfg.excludeWeekdays then false
    else if preferredMiss then false
    else
      match cfg.timeFilterMode with
      | .optimal => (6 ≤ hour ∧ hour ≤ 12) ∨ hour ≥ 23 ∨ hour ≤ 2
      | .safe => hour ∉ ([3, 4, 5, 14, 15, 19, 20, 21] : List ℤ)
      | .peak => (6 ≤ hour ∧ hour ≤ 9) ∨ hour = 0 ∨ hour = 23
      | .custom => hour ∈ cfg.allowedHours
      | .other => true

/-- `UnifiedTrader.can_trade`: roll the daily counter on a date change,
then apply the daily-trade cap and the cooldown interval. -/
def canTrade (cfg : GridConfig) (st : SimState) (ts : ℚ) : Bool × SimState :=
  let d := dateOf ts
  let st := if st.currentDate ≠ some d then
      { st with currentDate := some d, todayTradeCount := 0 }
    else st
  let limitHit : Bool :=
    match cfg.maxTradesPerDay with
    | some m => decide (st.todayTradeCount ≥ m)
    | none => false
  if limitHit then (false, st)
  else
    match st.lastTradeTime with
    | some lt => if ts - lt < cfg.cooldownMinutes then (false, st) else (true, st)
    | none => (true, st)

/-- Backtest branch of `UnifiedTrader.execute_buy` for the grid strategy:
`amount = min(capital, trade_amount / max_positions)`,
`fee = amount * fee_rate / 100`, the position stores the post-fee amount
and quantity and the nearest grid level, capital is debited by the
pre-fee `amount`. -/
def executeBuy (cfg : GridConfig) (st : SimState) (snap : Snapshot) (ts : ℚ) :
    SimState :=
  let entryPrice := snap.currentPrice
  let positionAmount := cfg.tradeAmount / (cfg.maxPositions : ℚ)
  let amount := min st.capital positionAmount
  let fee := amount * (cfg.feeRate / 100)
  let pos : Position :=
    { entryTime := ts
      entryPrice := entryPrice
      amount := amount - fee
      quantity := (amount - fee) / entryPrice
      fee := fee
      entryGridLevel := (getNearestGridLevel st.grid entryPrice).1 }
  { st with
    positions := st.positions ++ [pos]
    capital := st.capital - amount
    todayTradeCount := st.todayTradeCount + 1
    lastTradeTime := some ts }

/-- Backtest branch of `UnifiedTrader.execute_sell`: a missing position
index is a no-op failure; otherwise credit
`net = quantity * exit_price - fee` to capital, append the trade record
with `profit = net - position.amount`, and remove the position. -/
def executeSell (cfg : GridConfig) (st : SimState) (snap : Snapshot) (ts : ℚ)
    (reason : ExitReason) (idx : ℕ) : Bool × SimState :=
  if st.positions = [] ∨ idx ≥ st.positions.length then (false, st)
  else
    let pos := st.positions.getD idx default
    let exitPrice := snap.currentPrice
    let sellAmount := pos.quantity * exitPrice
    let fee := sellAmount * (cfg.feeRate / 100)
    let netAmount := sellAmount - fee
    let profit := netAmount - pos.amount
    let tr : Trade :=
      { timestamp := ts
        entryTime := pos.entryTime
        entryPrice := pos.entryPrice
        exitPrice := exitPrice
        profit := profit
        profitRate := profit / pos.amount * 100
        holdingTime := ts - pos.entryTime
        reason := reason }
    (true,
      { st with
        capital := st.capital + netAmount
        trades := st.trades ++ [tr]
        positions := st.positions.eraseIdx idx
        lastTradeTime := some ts })

/-- The snapshot `analyze_market` builds in backtest mode for the current
tick: indicator readings from the tick, `active_positions` from the
current open-position count, and no `'total_profit_rate'` key. -/
def mkSnapshot (st : SimState) (t : Tick) : Snapshot :=
  { currentPrice := t.price
    timestamp := t.timestamp
    atr := t.atr
    atrMa := t.atrMa
    bbUpper := t.bbUpper
    bbLower := t.bbLower
    activePositions := st.positions.length
    totalProfitRate := none }

/-- The per-tick exit pass of `run_backtest`: iterate the open positions
in reverse index order, evaluating each position's exit condition and
selling on a hit.  Also returns the list of positions whose exit
condition was evaluated, in evaluation order. -/
def exitSweepGo (cfg : GridConfig) (snap : Snapshot) (ts : ℚ) :
    ℕ → SimState → SimState × List Position
  | 0, st => (st, [])
  | i + 1, st =>
    match st.positions[i]? with
    | none => exitSweepGo cfg snap ts i st
    | some pos =>
      let holding := ts - pos.entryTime
      let st2 :=
        match checkExitConditions cfg st.grid pos snap holding with
        | some (_, reason) => (executeSell cfg st snap ts reason i).2
        | none => st
      let rest := exitSweepGo cfg snap ts i st2
      (rest.1, pos :: rest.2)

/-- State after the reverse-order exit pass over all open positions. -/
def exitSweep (cfg : GridConfig) (snap : Snapshot) (ts : ℚ) (st : SimState) :
    SimState :=
  (exitSweepGo cfg snap ts st.positions.length st).1

/-- The positions whose exit condition is evaluated during the tick's
exit pass, in evaluation order. -/
def exitEvaluated (cfg : GridConfig) (snap : Snapshot) (ts : ℚ) (st : SimState) :
    List Position :=
  (exitSweepGo cfg snap ts st.positions.length st).2

/-- One iteration of the `run_backtest` simulation loop: trading-hours
filter, warm-up guard, snapshot, exit pass over all open positions, then
(if trade gating allows) a single entry evaluation and at most one buy. -/
def processTick (cfg : GridConfig) (st : SimState) (t : Tick) : SimState :=
  if ¬ isTradingHours cfg t.timestamp then st
  else if ¬ t.dataOk then st
  else
    let snap := mkSnapshot st t
    let st1 := exitSweep cfg snap t.timestamp st
    let gate := canTrade cfg st1 t.timestamp
    if gate.1 then
      let entry := checkEntryConditions cfg gate.2.grid snap
      let st3 := { gate.2 with grid := entry.2 }
      if entry.1 then executeBuy cfg st3 snap t.timestamp else st3
    else gate.2

/-- The tick loop of `run_backtest` (before the forced period-end
closure). -/
def simulate (cfg : GridConfig) (ticks : List Tick) : SimState :=
  ticks.foldl (processTick cfg) initState

/-- The forced period-end closure: sell every remaining position in
reverse index order at the last available price. -/
def forceCloseGo (cfg : GridConfig) (snap : Snapshot) (ts : ℚ) :
    ℕ → SimState → SimState
  | 0, st => st
  | i + 1, st => forceCloseGo cfg snap ts i (executeSell cfg st snap ts .periodEnd i).2

/-- `UnifiedTrader.run_backtest`: run the tick loop, then force-close any
remaining open positions at the final candle's price and timestamp with
the period-end reason. -/
def runBacktest (cfg : GridConfig) (ticks : List Tick) : SimState :=
  let st := simulate cfg ticks
  match ticks.getLast? with
  | none => st
  | some t =>
    if st.positions = [] then st
    else
      let snap := mkSnapshot st t
      forceCloseGo cfg snap t.timestamp st.positions.length st

/-- Long/short tag of a breakout position (`hybrid_grid.py`). -/
inductive Direction where
  | long
  | short
deriving DecidableEq, Repr, Inhabited

/-- A breakout position dict as read by
`HybridGridStrategy.check_breakout_exit`: entry price, direction tag, and
the running extrema (absent until first updated, defaulting to the entry
price on read). -/
structure BreakoutPosition where
  entryPrice : ℚ
  direction : Direction := .long
  highestPrice : Option ℚ := none
  lowestPrice : Option ℚ := none
deriving DecidableEq, Repr, Inhabited

/-- Breakout sub-strategy configuration (`hybrid_grid.py` defaults). -/
structure BreakoutCfg where
  trailingStopAtrMultipleLong : ℚ := 3/2
  trailingStopAtrMultipleShort : ℚ := 1/2
deriving DecidableEq, Repr, Inhabited

/-- `HybridGridStrategy.check_breakout_exit`: update the running extremum
in place, then for a long position fire the ATR trailing stop
(`price ≤ peak - atr * multiple`, take-profit) or the -2% hard stop; for
a short position the mirrored trough trailing stop or the +2% take
profit.  Returns the updated position and the decision. -/
def checkBreakoutExit (cfg : BreakoutCfg) (pos : BreakoutPosition)
    (price atrVal : ℚ) : BreakoutPosition × Option (ExitKind × ExitReason) :=
  let profitRate := (price - pos.entryPrice) / pos.entryPrice * 100
  match pos.direction with
  | .long =>
    let hp := pos.highestPrice.getD pos.entryPrice
    let pos2 := if price > hp then { pos with highestPrice := some price } else pos
    let hp2 := if price > hp then price else hp
    if atrVal > 0 ∧ price ≤ hp2 - atrVal * cfg.trailingStopAtrMultipleLong then
      (pos2, some (.takeProfit, .spikeProfit))
    else if profitRate ≤ -2 then (pos2, some (.stopLoss, .singleStop))
    else (pos2, none)
  | .short =>
    let lp := pos.lowestPrice.getD pos.entryPrice
    let pos2 := if price < lp then { pos with lowestPrice := some price } else pos
    let lp2 := if price < lp then price else lp
    if atrVal > 0 ∧ price ≥ lp2 + atrVal * cfg.trailingStopAtrMultipleShort then
      (pos2, some (.stopLoss, .singleStop))
    else if profitRate ≥ 2 then (pos2, some (.takeProfit, .spikeProfit))
    else (pos2, none)

/-- Feed a price sequence (with a fixed ATR reading) through successive
breakout exit checks, stopping at the first exit decision. -/
def breakoutSweep (cfg : BreakoutCfg) (atrVal : ℚ) :
    BreakoutPosition → List ℚ → BreakoutPosition × Option (ExitKind × ExitReason)
  | pos, [] => (pos, none)
  | pos, p :: ps =>
    match checkBreakoutExit cfg pos p atrVal with
    | (pos2, none) => breakoutSweep cfg atrVal pos2 ps
    | (pos2, some k) => (pos2, some k)

/-! ### Definitions used by the verification statements -/

/-- Invariant for C10: capital is non-negative and every open position
holds a non-negative quantity. -/
def CapInv (st : SimState) : Prop :=
  0 ≤ st.capital ∧ ∀ p ∈ st.positions, 0 ≤ p.quantity

/-- Invariant for C4: every closed trade's entry time is at most its exit
time, and its recorded holding time is the difference in minutes. -/
def TradesOk (st : SimState) : Prop :=
  ∀ tr ∈ st.trades, tr.entryTime ≤ tr.timestamp ∧
    tr.holdingTime = tr.timestamp - tr.entryTime

/-- Invariant for C4: every open position was entered at or before `b`. -/
def PosBound (st : SimState) (b : ℚ) : Prop :=
  ∀ p ∈ st.positions, p.entryTime ≤ b

/-- The timestamp of the last tick, or `b` for an empty tick list. -/
def lastTsD (b : ℚ) (ticks : List Tick) : ℚ :=
  match ticks.getLast? with
  | some t => t.timestamp
  | none => b

/-- Configuration of the C4 run: defaults with the Bollinger entry filter
disabled so a flat tick can enter immediately. -/
def c4cfg : GridConfig := { useBBEntryFilter := false }

/-- The single tick of the C4 run: price 100 at time 0, neutral
indicator readings. -/
def c4tick : Tick := ⟨0, 100, 0, 0, 0, 0, true⟩

/-- The engine state after processing the single C4 tick: one position
opened at time 0 on the freshly initialized grid. -/
def c4st1 : SimState :=
  { capital := 2200000/3
    positions := [⟨0, 100, 799600/3, 7996/3, 400/3, 2⟩]
    trades := []
    todayTradeCount := 1
    lastTradeTime := some 0
    currentDate := some 0
    grid := { gridPrices := [98, 99, 100, 101, 102], basePrice := some 100,
              initializedAt := some 0, lastBBWidth := none } }

/-! ### Helper lemmas -/

theorem insertLe_length (x : ℚ) (l : List ℚ) :
    (insertLe x l).length = l.length + 1 := by
  induction l with
  | nil => rfl
  | cons y ys ih =>
    simp only [insertLe]
    split
    · simp
    · simp [ih]

theorem sortLe_length (l : List ℚ) : (sortLe l).length = l.length := by
  induction l with
  | nil => rfl
  | cons x xs ih => simp [sortLe, insertLe_length, ih]

theorem sortLe_eq_self (l : List ℚ) (h : l.Pairwise (· ≤ ·)) : sortLe l = l := by
  induction l with
  | nil => rfl
  | cons x xs ih =>
    have hxs := List.Pairwise.of_cons h
    simp only [sortLe, ih hxs]
    cases xs with
    | nil => rfl
    | cons y ys =>
      simp only [insertLe]
      rw [if_pos]
      exact (List.pairwise_cons.mp h).1 y (List.mem_cons_self y ys)

theorem levelAt_strictMono (cfg : GridConfig) (price : ℚ)
    (hp : 0 < price) (hs : 0 < cfg.gridSpacing) {a b : ℕ} (hab : a < b) :
    levelAt cfg price a < levelAt cfg price b := by
  unfold levelAt
  have hk : ((((a : ℤ) - ((cfg.gridLevels / 2 : ℕ) : ℤ)) : ℤ) : ℚ) <
      ((((b : ℤ) - ((cfg.gridLevels / 2 : ℕ) : ℤ)) : ℤ) : ℚ) := by
    push_cast
    have : (a : ℚ) < (b : ℚ) := by exact_mod_cast hab
    linarith
  have hmul := mul_lt_mul_of_pos_right hk hs
  exact mul_lt_mul_of_pos_left (by linarith) hp

theorem levelAt_mid (cfg : GridConfig) (price : ℚ) :
    levelAt cfg price (cfg.gridLevels / 2) = price := by
  unfold levelAt
  rw [sub_self]
  push_cast
  ring

theorem rawLevels_pairwise (cfg : GridConfig) (price : ℚ)
    (hp : 0 < price) (hs : 0 < cfg.gridSpacing) :
    (rawLevels cfg price).Pairwise (· < ·) := by
  unfold rawLevels
  exact List.Pairwise.map (levelAt cfg price)
    (fun a b hab => levelAt_strictMono cfg price hp hs hab)
    (List.pairwise_lt_range _)

theorem rawLevels_length (cfg : GridConfig) (price : ℚ) :
    (rawLevels cfg price).length = 2 * (cfg.gridLevels / 2) + 1 := by
  simp [rawLevels]

theorem initializeGrid_eq_raw (cfg : GridConfig) (price ts : ℚ) (g : GridState)
    (hp : 0 < price) (hs : 0 < cfg.gridSpacing) :
    (initializeGrid cfg price ts g).gridPrices = rawLevels cfg price :=
  sortLe_eq_self _ ((rawLevels_pairwise cfg price hp hs).imp le_of_lt)

theorem rawLevels_getD_mid (cfg : GridConfig) (price : ℚ) :
    (rawLevels cfg price).getD (cfg.gridLevels / 2) 0 = price := by
  have hlt : cfg.gridLevels / 2 < 2 * (cfg.gridLevels / 2) + 1 := by omega
  rw [List.getD_eq_getElem?_getD, rawLevels, List.getElem?_map, List.getElem?_range hlt]
  simp [levelAt_mid]

/-- C5 (counterexample): with an even configured level count (4) and zero
spacing, `initialize_grid` at price 100 builds five identical levels: the
length differs from the configured count and the list is not strictly
increasing, refuting the claim as stated. -/
theorem initializeGrid_claim5_counterexample :
    (initializeGrid { gridLevels := 4, gridSpacing := 0 } 100 0 {}).gridPrices =
      [100, 100, 100, 100, 100] ∧
    ¬ ((initializeGrid { gridLevels := 4, gridSpacing := 0 } 100 0 {}).gridPrices.length = 4) ∧
    ¬ (initializeGrid { gridLevels := 4, gridSpacing := 0 } 100 0 {}).gridPrices.Pairwise (· < ·) := by
  have hr : List.range 5 = [0, 1, 2, 3, 4] := rfl
  have hlist : (initializeGrid { gridLevels := 4, gridSpacing := 0 } 100 0 {}).gridPrices =
      [100, 100, 100, 100, 100] := by
    norm_num [initializeGrid, rawLevels, levelAt, hr, sortLe, insertLe]
  refine ⟨hlist, by rw [hlist]; norm_num, ?_⟩
  rw [hlist]
  norm_num [List.pairwise_cons]

/-- C5 (amended): for every positive price and positive configured
spacing, `initialize_grid` builds `current_price * (1 + i * spacing%)`
for `i ∈ [-(levels // 2) .. levels // 2]`, sorted ascending; the list has
length `2 * (levels // 2) + 1` — equal to the configured count exactly
when that count is odd — the length is always odd, the levels are
strictly increasing, the middle index holds the base price, and the base
price is recorded. -/
theorem initializeGrid_levels_spec (cfg : GridConfig) (price ts : ℚ) (g : GridState)
    (hp : 0 < price) (hs : 0 < cfg.gridSpacing) :
    (initializeGrid cfg price ts g).gridPrices.length = 2 * (cfg.gridLevels / 2) + 1 ∧
    Odd (initializeGrid cfg price ts g).gridPrices.length ∧
    (cfg.gridLevels % 2 = 1 →
      (initializeGrid cfg price ts g).gridPrices.length = cfg.gridLevels) ∧
    (initializeGrid cfg price ts g).gridPrices.Pairwise (· < ·) ∧
    (initializeGrid cfg price ts g).gridPrices.getD
      ((initializeGrid cfg price ts g).gridPrices.length / 2) 0 = price ∧
    (initializeGrid cfg price ts g).basePrice = some price := by
  have hraw := initializeGrid_eq_raw cfg price ts g hp hs
  have hlen : (initializeGrid cfg price ts g).gridPrices.length =
      2 * (cfg.gridLevels / 2) + 1 := by rw [hraw, rawLevels_length]
  refine ⟨hlen, ⟨cfg.gridLevels / 2, by omega⟩, fun hodd => by omega, ?_, ?_, rfl⟩
  · rw [hraw]
    exact rawLevels_pairwise cfg price hp hs
  · rw [hraw, rawLevels_length]
    have h2 : (2 * (cfg.gridLevels / 2) + 1) / 2 = cfg.gridLevels / 2 := by omega
    rw [h2, rawLevels_getD_mid]

/-- C5 (witness): the amended statement at the default configuration
(5 levels, 1% spacing), price 100. -/
theorem initializeGrid_levels_spec_witness :
    (0 : ℚ) < 100 ∧ (0 : ℚ) < ({} : GridConfig).gridSpacing ∧
    ((initializeGrid {} 100 0 {}).gridPrices.length = 2 * (({} : GridConfig).gridLevels / 2) + 1 ∧
     Odd (initializeGrid {} 100 0 {}).gridPrices.length ∧
     (({} : GridConfig).gridLevels % 2 = 1 →
       (initializeGrid {} 100 0 {}).gridPrices.length = ({} : GridConfig).gridLevels) ∧
     (initializeGrid {} 100 0 {}).gridPrices.Pairwise (· < ·) ∧
     (initializeGrid {} 100 0 {}).gridPrices.getD
       ((initializeGrid {} 100 0 {}).gridPrices.length / 2) 0 = 100 ∧
     (initializeGrid {} 100 0 {}).basePrice = some 100) :=
  ⟨by norm_num, by show (0 : ℚ) < 1; norm_num,
    initializeGrid_levels_spec {} 100 0 {} (by norm_num) (by show (0 : ℚ) < 1; norm_num)⟩

/-- C9: an attempt to close a position at an index that no longer exists
(empty list, or index at or beyond the list length) is a no-op failure:
`execute_sell` returns failure and leaves the whole engine state — capital,
open positions, trade history — unchanged. -/
theorem executeSell_stale_idx_noop (cfg : GridConfig) (st : SimState) (snap : Snapshot)
    (ts : ℚ) (r : ExitReason) (idx : ℕ) (h : st.positions.length ≤ idx) :
    executeSell cfg st snap ts r idx = (false, st) := by
  unfold executeSell
  rw [if_pos (Or.inr h)]

/-- C9 (witness): selling index 0 out of an empty position list fails and
changes nothing. -/
theorem executeSell_stale_idx_noop_witness :
    initState.positions.length ≤ 0 ∧
    executeSell {} initState ⟨100, 0, 0, 0, 0, 0, 0, none⟩ 0 .periodEnd 0 =
      (false, initState) :=
  ⟨Nat.le_refl 0,
    executeSell_stale_idx_noop {} initState ⟨100, 0, 0, 0, 0, 0, 0, none⟩ 0 .periodEnd 0
      (Nat.le_refl 0)⟩

/-- C6 (counterexample): the volatility-spike exit does not fire at the
exact thresholds.  With ATR exactly 1.5× its moving average (atr 3,
atr_ma 2) and a +0.6% position, and with ATR at 1.6× and the profit
exactly +0.5%, `check_exit_conditions` returns no exit, although the
claim says the ≥-thresholds still fire. -/
theorem checkExitConditions_spike_boundary_counterexample :
    checkExitConditions {} {} ⟨0, 100, 100, 1, 0, -1⟩
      ⟨503/5, 10, 3, 2, 0, 0, 1, none⟩ 10 = none ∧
    checkExitConditions {} {} ⟨0, 100, 100, 1, 0, -1⟩
      ⟨201/2, 10, 16/5, 2, 0, 0, 1, none⟩ 10 = none := by
  constructor <;> norm_num [checkExitConditions]

/-- C6 (amended): when none of the earlier exit tests fires (profit rate
strictly between the individual stop-loss and take-profit thresholds, the
portfolio stop not triggered, the next-grid-level test not triggered) and
the ATR moving average is positive, the volatility-spike exit fires
exactly on the strict thresholds: ATR strictly above 1.5× its moving
average, and profit rate strictly above +0.5% (profitable close) or
strictly below −0.3% (loss cut); at exactly 1.5× or exactly +0.5% no
exit fires.  The next-grid hypothesis is exactly the negation of the
source's step-4 guard, so positions with a recorded grid level are
covered whenever the price has not reached the level above. -/
theorem checkExitConditions_spike (cfg : GridConfig) (g : GridState) (pos : Position)
    (snap : Snapshot) (holdingMinutes : ℚ)
    (hsl : cfg.singlePositionStopLoss <
      (snap.currentPrice - pos.entryPrice) / pos.entryPrice * 100)
    (htp : (snap.currentPrice - pos.entryPrice) / pos.entryPrice * 100 <
      cfg.singleGridProfit)
    (htot : ¬ ((snap.totalProfitRate.getD 0) ≤ cfg.totalStopLoss ∧ cfg.totalStopLoss ≠ 0))
    (hlvl : ¬ (pos.entryGridLevel ≥ 0 ∧ g.gridPrices ≠ [] ∧
      pos.entryGridLevel + 1 < (g.gridPrices.length : ℤ) ∧
      snap.currentPrice ≥ g.gridPrices.getD (pos.entryGridLevel + 1).toNat 0))
    (hma : 0 < snap.atrMa)
    (hquot : snap.atr / snap.atrMa > 3/2) :
    ((snap.currentPrice - pos.entryPrice) / pos.entryPrice * 100 > 1/2 →
      checkExitConditions cfg g pos snap holdingMinutes =
        some (.takeProfit, .spikeProfit)) ∧
    ((snap.currentPrice - pos.entryPrice) / pos.entryPrice * 100 < -(3/10) →
      checkExitConditions cfg g pos snap holdingMinutes =
        some (.takeProfit, .spikeLoss)) := by
  unfold checkExitConditions
  rw [if_neg (not_le.mpr hsl), if_neg (not_le.mpr htp), if_neg htot, if_neg hlvl]
  constructor
  · intro hpr
    rw [if_pos ⟨hma, hquot, hpr⟩]
  · intro hpr
    rw [if_neg (fun hc => absurd hc.2.2 (by linarith)), if_pos ⟨hma, hquot, hpr⟩]

/-- C6 (witness): the amended statement on a realistic grid position —
entered at the middle level (index 2) of the grid around 100, current
price 100.7 still below the next level 101 — with ATR at 2× its moving
average fires the profitable spike exit. -/
theorem checkExitConditions_spike_witness :
    checkExitConditions {} ⟨[98, 99, 100, 101, 102], some 100, some 0, none⟩
      ⟨0, 100, 100, 1, 0, 2⟩ ⟨1007/10, 10, 4, 2, 0, 0, 1, none⟩ 10 =
      some (.takeProfit, .spikeProfit) := by
  have h := checkExitConditions_spike {} ⟨[98, 99, 100, 101, 102], some 100, some 0, none⟩
    ⟨0, 100, 100, 1, 0, 2⟩ ⟨1007/10, 10, 4, 2, 0, 0, 1, none⟩ 10 (by norm_num) (by norm_num)
    (by norm_num)
    (by
      intro hc
      have hnext : (1007/10 : ℚ) ≥ 101 := by
        have h101 : (⟨[98, 99, 100, 101, 102], some 100, some 0, none⟩ :
            GridState).gridPrices.getD ((⟨0, 100, 100, 1, 0, 2⟩ :
            Position).entryGridLevel + 1).toNat 0 = 101 := rfl
        rw [← h101]
        exact hc.2.2.2
      norm_num at hnext)
    (by norm_num) (by norm_num)
  exact h.1 (by norm_num)

/-- C2: the portfolio-wide stop-loss is dead code.  The snapshot built by
`analyze_market` never carries the `'total_profit_rate'` key, so
`check_exit_conditions` always reads the default 0 there; with
`total_stop_loss = -3` and two open positions each at −2% (true aggregate
−4% ≤ −3%) no exit fires, although the same exit check would fire if the
snapshot carried the aggregate, as the claim and the strategy's own
docstring describe. -/
theorem totalStopLoss_never_fires :
    (∀ (st : SimState) (t : Tick), (mkSnapshot st t).totalProfitRate = none) ∧
    ((98 - 100) / 100 * 100 + (98 - 100) / 100 * 100 ≤ (-3 : ℚ)) ∧
    checkExitConditions { totalStopLoss := -3, singlePositionStopLoss := -5 } {}
      ⟨0, 100, 100, 1, 0, -1⟩
      (mkSnapshot { initState with positions := [⟨0, 100, 100, 1, 0, -1⟩, ⟨0, 100, 100, 1, 0, -1⟩] }
        ⟨10, 98, 0, 0, 0, 0, true⟩) 10 = none ∧
    checkExitConditions { totalStopLoss := -3, singlePositionStopLoss := -5 } {}
      ⟨0, 100, 100, 1, 0, -1⟩
      { (mkSnapshot { initState with positions := [⟨0, 100, 100, 1, 0, -1⟩, ⟨0, 100, 100, 1, 0, -1⟩] }
          ⟨10, 98, 0, 0, 0, 0, true⟩) with totalProfitRate := some (-4) } 10 =
      some (.stopLoss, .totalStop) := by
  refine ⟨fun st t => rfl, by norm_num, ?_, ?_⟩ <;>
    norm_num [checkExitConditions, mkSnapshot]

theorem getD_append_length {α : Type} [Inhabited α] (l : List α) (x d : α) :
    (l ++ [x]).getD l.length d = x := by
  rw [List.getD_eq_getElem?_getD, List.getElem?_append_right (le_refl _)]
  simp

theorem eraseIdx_append_length {α : Type} (l : List α) (x : α) :
    (l ++ [x]).eraseIdx l.length = l := by
  induction l with
  | nil => rfl
  | cons a as ih => simp [List.eraseIdx, ih]

/-- C3: simulated round-trip accounting.  The buy debits the pre-fee
notional `amount = min(capital, trade_amount / max_positions)` from
capital and books `fee = amount * fee_rate`, storing the post-fee
invested amount and quantity on the position; selling that position
credits `net_amount = quantity * exit_price - exit_fee` back to capital,
and the trade record's realized profit is `net_amount` minus the amount
invested at entry (the stored post-fee `amount` field). -/
theorem buy_sell_accounting (cfg : GridConfig) (st : SimState) (snap snap2 : Snapshot)
    (ts ts2 : ℚ) (r : ExitReason) :
    let amount := min st.capital (cfg.tradeAmount / (cfg.maxPositions : ℚ))
    let entryFee := amount * (cfg.feeRate / 100)
    let invested := amount - entryFee
    let q := invested / snap.currentPrice
    let stB := executeBuy cfg st snap ts
    let sellAmount := q * snap2.currentPrice
    let exitFee := sellAmount * (cfg.feeRate / 100)
    let net := sellAmount - exitFee
    let res := executeSell cfg stB snap2 ts2 r st.positions.length
    stB.capital = st.capital - amount ∧
    stB.positions = st.positions ++
      [{ entryTime := ts, entryPrice := snap.currentPrice, amount := invested,
         quantity := q, fee := entryFee,
         entryGridLevel := (getNearestGridLevel st.grid snap.currentPrice).1 }] ∧
    res.1 = true ∧
    res.2.capital = stB.capital + net ∧
    res.2.trades = stB.trades ++
      [{ timestamp := ts2, entryTime := ts, entryPrice := snap.currentPrice,
         exitPrice := snap2.currentPrice, profit := net - invested,
         profitRate := (net - invested) / invested * 100,
         holdingTime := ts2 - ts, reason := r }] ∧
    res.2.positions = st.positions := by
  intro amount entryFee invested q stB sellAmount exitFee net res
  have hpos : stB.positions = st.positions ++
      [{ entryTime := ts, entryPrice := snap.currentPrice, amount := invested,
         quantity := q, fee := entryFee,
         entryGridLevel := (getNearestGridLevel st.grid snap.currentPrice).1 }] := rfl
  have hguard : ¬ (stB.positions = [] ∨ st.positions.length ≥ stB.positions.length) := by
    rw [hpos]
    push_neg
    constructor
    · simp
    · simp
  have hres : res = executeSell cfg stB snap2 ts2 r st.positions.length := rfl
  rw [executeSell, if_neg hguard] at hres
  have hget : stB.positions.getD st.positions.length default =
      { entryTime := ts, entryPrice := snap.currentPrice, amount := invested,
        quantity := q, fee := entryFee,
        entryGridLevel := (getNearestGridLevel st.grid snap.currentPrice).1 } := by
    rw [hpos, getD_append_length]
  have herase : stB.positions.eraseIdx st.positions.length = st.positions := by
    rw [hpos, eraseIdx_append_length]
  rw [hget] at hres
  refine ⟨rfl, hpos, ?_, ?_, ?_, ?_⟩
  · rw [hres]
  · rw [hres]
  · rw [hres]
  · rw [hres]
    exact herase

/-- C7: for a breakout long position the exit check maintains the peak as
the running maximum of the observed prices, and fires the take-profit
trailing stop exactly when the price has fallen to
`peak - ATR * long_trailing_multiple`.  In the concrete scenario (entry
100, ATR 2, multiple 1.5, prices 100 → 110 → 108) no exit fires and the
peak ends at 110; at price 107 (= 110 − 2·1.5) the take-profit fires,
while at 107.5 it does not. -/
theorem checkBreakoutExit_long_spec (cfg : BreakoutCfg) (pos : BreakoutPosition)
    (price atrVal : ℚ) (hd : pos.direction = .long) (hatr : 0 < atrVal) :
    ((checkBreakoutExit cfg pos price atrVal).1.highestPrice.getD
        (checkBreakoutExit cfg pos price atrVal).1.entryPrice =
      max (pos.highestPrice.getD pos.entryPrice) price) ∧
    (((checkBreakoutExit cfg pos price atrVal).2.map Prod.fst = some .takeProfit) ↔
      price ≤ max (pos.highestPrice.getD pos.entryPrice) price -
        atrVal * cfg.trailingStopAtrMultipleLong) ∧
    breakoutSweep {} 2 ⟨100, .long, none, none⟩ [100, 110, 108] =
      (⟨100, .long, some 110, none⟩, none) ∧
    (checkBreakoutExit {} ⟨100, .long, some 110, none⟩ 107 2).2 =
      some (.takeProfit, .spikeProfit) ∧
    (checkBreakoutExit {} ⟨100, .long, some 110, none⟩ (215/2) 2).2 = none := by
  have hmain : (checkBreakoutExit cfg pos price atrVal).1.highestPrice.getD
        (checkBreakoutExit cfg pos price atrVal).1.entryPrice =
      max (pos.highestPrice.getD pos.entryPrice) price ∧
      (((checkBreakoutExit cfg pos price atrVal).2.map Prod.fst = some .takeProfit) ↔
        price ≤ max (pos.highestPrice.getD pos.entryPrice) price -
          atrVal * cfg.trailingStopAtrMultipleLong) := by
    unfold checkBreakoutExit
    rw [hd]
    dsimp only
    by_cases hup : price > pos.highestPrice.getD pos.entryPrice
    · rw [if_pos hup, if_pos hup, max_eq_right (le_of_lt hup)]
      constructor
      · split_ifs <;> rfl
      · split_ifs with h1 h2
        · exact iff_of_true rfl h1.2
        · exact iff_of_false (by simp) (fun hc => h1 ⟨hatr, hc⟩)
        · exact iff_of_false (by simp) (fun hc => h1 ⟨hatr, hc⟩)
    · rw [if_neg hup, if_neg hup, max_eq_left (le_of_not_lt hup)]
      constructor
      · split_ifs <;> rfl
      · split_ifs with h1 h2
        · exact iff_of_true rfl h1.2
        · exact iff_of_false (by simp) (fun hc => h1 ⟨hatr, hc⟩)
        · exact iff_of_false (by simp) (fun hc => h1 ⟨hatr, hc⟩)
  refine ⟨hmain.1, hmain.2, ?_, ?_, ?_⟩
  · norm_num [breakoutSweep, checkBreakoutExit]
  · norm_num [checkBreakoutExit]
  · norm_num [checkBreakoutExit]

/-- C7 (witness): the peak-maintenance and trailing-fire statement at a
fresh long position (entry 100, ATR 2) observed at price 105. -/
theorem checkBreakoutExit_long_spec_witness :
    (⟨100, .long, none, none⟩ : BreakoutPosition).direction = .long ∧ (0 : ℚ) < 2 ∧
    (((checkBreakoutExit {} ⟨100, .long, none, none⟩ 105 2).1.highestPrice.getD
        (checkBreakoutExit {} ⟨100, .long, none, none⟩ 105 2).1.entryPrice =
      max ((⟨100, .long, none, none⟩ : BreakoutPosition).highestPrice.getD
        (⟨100, .long, none, none⟩ : BreakoutPosition).entryPrice) 105) ∧
    (((checkBreakoutExit {} ⟨100, .long, none, none⟩ 105 2).2.map Prod.fst =
        some .takeProfit) ↔
      (105 : ℚ) ≤ max ((⟨100, .long, none, none⟩ : BreakoutPosition).highestPrice.getD
        (⟨100, .long, none, none⟩ : BreakoutPosition).entryPrice) 105 -
        2 * ({} : BreakoutCfg).trailingStopAtrMultipleLong) ∧
    breakoutSweep {} 2 ⟨100, .long, none, none⟩ [100, 110, 108] =
      (⟨100, .long, some 110, none⟩, none) ∧
    (checkBreakoutExit {} ⟨100, .long, some 110, none⟩ 107 2).2 =
      some (.takeProfit, .spikeProfit) ∧
    (checkBreakoutExit {} ⟨100, .long, some 110, none⟩ (215/2) 2).2 = none) :=
  ⟨rfl, by norm_num,
    checkBreakoutExit_long_spec {} ⟨100, .long, none, none⟩ 105 2 rfl (by norm_num)⟩

/-! ### Step lemmas about the simulation loop -/

theorem executeSell_snd_positions_sublist (cfg : GridConfig) (st : SimState)
    (snap : Snapshot) (ts : ℚ) (r : ExitReason) (idx : ℕ) :
    ((executeSell cfg st snap ts r idx).2).positions.Sublist st.positions := by
  unfold executeSell
  split
  · exact List.Sublist.refl _
  · exact List.eraseIdx_sublist _ _

theorem executeSell_snd_grid (cfg : GridConfig) (st : SimState)
    (snap : Snapshot) (ts : ℚ) (r : ExitReason) (idx : ℕ) :
    ((executeSell cfg st snap ts r idx).2).grid = st.grid := by
  unfold executeSell
  split <;> rfl

theorem exitSweepGo_fst_positions_sublist (cfg : GridConfig) (snap : Snapshot)
    (ts : ℚ) : ∀ (i : ℕ) (st : SimState),
    ((exitSweepGo cfg snap ts i st).1).positions.Sublist st.positions := by
  intro i
  induction i with
  | zero => intro st; exact List.Sublist.refl _
  | succ i ih =>
    intro st
    rw [exitSweepGo]
    cases h : st.positions[i]? with
    | none => exact ih st
    | some pos =>
      dsimp only
      cases hc : checkExitConditions cfg st.grid pos snap (ts - pos.entryTime) with
      | none => exact ih st
      | some kr =>
        exact (ih _).trans (executeSell_snd_positions_sublist cfg st snap ts kr.2 i)

theorem exitSweep_positions_sublist (cfg : GridConfig) (snap : Snapshot)
    (ts : ℚ) (st : SimState) :
    (exitSweep cfg snap ts st).positions.Sublist st.positions :=
  exitSweepGo_fst_positions_sublist cfg snap ts st.positions.length st

theorem canTrade_snd_fields (cfg : GridConfig) (st : SimState) (ts : ℚ) :
    ((canTrade cfg st ts).2).positions = st.positions ∧
    ((canTrade cfg st ts).2).capital = st.capital ∧
    ((canTrade cfg st ts).2).trades = st.trades ∧
    ((canTrade cfg st ts).2).grid = st.grid := by
  unfold canTrade
  dsimp only
  repeat' split
  all_goals exact ⟨rfl, rfl, rfl, rfl⟩

theorem checkEntryConditions_true_active_lt (cfg : GridConfig) (g : GridState)
    (snap : Snapshot) (h : (checkEntryConditions cfg g snap).1 = true) :
    snap.activePositions < cfg.maxPositions := by
  by_contra hge
  rw [not_lt] at hge
  unfold checkEntryConditions at h
  rw [if_pos hge] at h
  simp at h

theorem executeBuy_positions (cfg : GridConfig) (st : SimState) (snap : Snapshot)
    (ts : ℚ) :
    (executeBuy cfg st snap ts).positions.length = st.positions.length + 1 := by
  simp [executeBuy]

theorem processTick_length_le (cfg : GridConfig) (st : SimState) (t : Tick)
    (h : st.positions.length ≤ cfg.maxPositions) :
    (processTick cfg st t).positions.length ≤ cfg.maxPositions := by
  unfold processTick
  split
  · exact h
  split
  · exact h
  dsimp only
  have hact : (mkSnapshot st t).activePositions = st.positions.length := rfl
  have h1 : (exitSweep cfg (mkSnapshot st t) t.timestamp st).positions.length ≤
      st.positions.length :=
    (exitSweep_positions_sublist cfg (mkSnapshot st t) t.timestamp st).length_le
  have h2 := (canTrade_snd_fields cfg
    (exitSweep cfg (mkSnapshot st t) t.timestamp st) t.timestamp).1
  split
  · split
    · rename_i hentry
      have hlt := checkEntryConditions_true_active_lt cfg _ (mkSnapshot st t) hentry
      rw [hact] at hlt
      rw [executeBuy_positions]
      have hgoal : ((canTrade cfg (exitSweep cfg (mkSnapshot st t) t.timestamp st)
          t.timestamp).2).positions.length + 1 ≤ cfg.maxPositions := by
        rw [h2]
        omega
      exact hgoal
    · have hgoal : ((canTrade cfg (exitSweep cfg (mkSnapshot st t) t.timestamp st)
          t.timestamp).2).positions.length ≤ cfg.maxPositions := by
        rw [h2]
        omega
      exact hgoal
  · rw [h2]
    omega

theorem forceCloseGo_positions_sublist (cfg : GridConfig) (snap : Snapshot)
    (ts : ℚ) : ∀ (i : ℕ) (st : SimState),
    (forceCloseGo cfg snap ts i st).positions.Sublist st.positions := by
  intro i
  induction i with
  | zero => intro st; exact List.Sublist.refl _
  | succ i ih =>
    intro st
    rw [forceCloseGo]
    exact (ih _).trans (executeSell_snd_positions_sublist cfg st snap ts .periodEnd i)

theorem simulate_length_le (cfg : GridConfig) (ticks : List Tick) :
    (simulate cfg ticks).positions.length ≤ cfg.maxPositions := by
  have : ∀ (ticks : List Tick) (st : SimState), st.positions.length ≤ cfg.maxPositions →
      (ticks.foldl (processTick cfg) st).positions.length ≤ cfg.maxPositions := by
    intro ticks
    induction ticks with
    | nil => intro st h; exact h
    | cons t rest ih =>
      intro st h
      exact ih _ (processTick_length_le cfg st t h)
  exact this ticks initState (by simp [initState])

/-- C1: for every configuration and tick sequence, the entry gate rejects
whenever the snapshot's active position count is at or above
`max_positions`, and both during the tick loop (after any prefix of
ticks, since the tick list is universally quantified) and after the full
backtest the number of open positions never exceeds `max_positions`. -/
theorem max_positions_invariant (cfg : GridConfig) (ticks : List Tick) :
    (∀ (g : GridState) (snap : Snapshot),
      (checkEntryConditions cfg g snap).1 = true →
        snap.activePositions < cfg.maxPositions) ∧
    (simulate cfg ticks).positions.length ≤ cfg.maxPositions ∧
    (runBacktest cfg ticks).positions.length ≤ cfg.maxPositions := by
  refine ⟨fun g snap h => checkEntryConditions_true_active_lt cfg g snap h,
    simulate_length_le cfg ticks, ?_⟩
  unfold runBacktest
  cases ticks.getLast? with
  | none => exact simulate_length_le cfg ticks
  | some t =>
    dsimp only
    split
    · exact simulate_length_le cfg ticks
    · exact le_trans
        (List.Sublist.length_le (forceCloseGo_positions_sublist cfg _ _ _ _))
        (simulate_length_le cfg ticks)

theorem take_eraseIdx_eq {α : Type} : ∀ (l : List α) (i : ℕ),
    (l.eraseIdx i).take i = l.take i := by
  intro l
  induction l with
  | nil => intro i; rfl
  | cons a as ih =>
    intro i
    cases i with
    | zero => rfl
    | succ i => simp [List.eraseIdx, ih]

theorem eraseIdx_length_of_lt {α : Type} : ∀ (l : List α) (i : ℕ), i < l.length →
    (l.eraseIdx i).length = l.length - 1 := by
  intro l
  induction l with
  | nil => intro i h; simp at h
  | cons a as ih =>
    intro i h
    cases i with
    | zero => rfl
    | succ i =>
      have := ih i (by simpa using h)
      simp only [List.eraseIdx, List.length_cons, this]
      have hi : i < as.length := by simpa using h
      omega

theorem executeSell_snd_positions_take (cfg : GridConfig) (st : SimState)
    (snap : Snapshot) (ts : ℚ) (r : ExitReason) (i : ℕ) :
    ((executeSell cfg st snap ts r i).2).positions.take i = st.positions.take i := by
  unfold executeSell
  split
  · rfl
  · exact take_eraseIdx_eq _ _

theorem executeSell_snd_positions_length_ge (cfg : GridConfig) (st : SimState)
    (snap : Snapshot) (ts : ℚ) (r : ExitReason) (i : ℕ) (h : i < st.positions.length) :
    i ≤ ((executeSell cfg st snap ts r i).2).positions.length := by
  unfold executeSell
  split
  · dsimp only
    omega
  · dsimp only
    rw [eraseIdx_length_of_lt st.positions i h]
    omega

theorem exitSweepGo_snd_eval (cfg : GridConfig) (snap : Snapshot) (ts : ℚ) :
    ∀ (i : ℕ) (st : SimState), i ≤ st.positions.length →
    (exitSweepGo cfg snap ts i st).2 = (st.positions.take i).reverse := by
  intro i
  induction i with
  | zero => intro st h; simp [exitSweepGo]
  | succ i ih =>
    intro st h
    have hi : i < st.positions.length := by omega
    rw [exitSweepGo, List.getElem?_eq_getElem hi]
    dsimp only
    have htake : st.positions.take (i + 1) = st.positions.take i ++ [st.positions[i]] := by
      rw [List.take_succ, List.getElem?_eq_getElem hi]
      rfl
    cases hc : checkExitConditions cfg st.grid st.positions[i] snap
        (ts - st.positions[i].entryTime) with
    | none =>
      dsimp only
      rw [ih st (le_of_lt hi), htake, List.reverse_append, List.reverse_singleton,
        List.singleton_append]
    | some kr =>
      dsimp only
      rw [ih _ (executeSell_snd_positions_length_ge cfg st snap ts kr.2 i hi),
        executeSell_snd_positions_take, htake, List.reverse_append,
        List.reverse_singleton, List.singleton_append]

theorem exitEvaluated_eq_reverse (cfg : GridConfig) (snap : Snapshot) (ts : ℚ)
    (st : SimState) :
    exitEvaluated cfg snap ts st = st.positions.reverse := by
  rw [exitEvaluated, exitSweepGo_snd_eval cfg snap ts st.positions.length st (le_refl _),
    List.take_length]

theorem processTick_new_position (cfg : GridConfig) (st : SimState) (t : Tick) :
    ∀ p ∈ (processTick cfg st t).positions, p ∉ st.positions →
      p.entryTime = t.timestamp := by
  intro p hp hnot
  unfold processTick at hp
  split at hp
  · exact absurd hp hnot
  split at hp
  · exact absurd hp hnot
  dsimp only at hp
  have hsub : ∀ q, q ∈ ((canTrade cfg (exitSweep cfg (mkSnapshot st t) t.timestamp st)
      t.timestamp).2).positions → q ∈ st.positions := by
    intro q hq
    rw [(canTrade_snd_fields cfg (exitSweep cfg (mkSnapshot st t) t.timestamp st)
      t.timestamp).1] at hq
    exact (exitSweep_positions_sublist cfg (mkSnapshot st t) t.timestamp st).subset hq
  split at hp
  · split at hp
    · unfold executeBuy at hp
      dsimp only at hp
      rcases List.mem_append.mp hp with hmem | hmem
      · exact absurd (hsub p hmem) hnot
      · rw [List.mem_singleton.mp hmem]
    · exact absurd (hsub p hp) hnot
  · exact absurd (hsub p hp) hnot

/-- C8: within a processed tick the exit pass evaluates exactly the
positions open at the start of the tick (in reverse index order), all of
which were entered strictly before this tick's timestamp; the entry
evaluation runs only afterwards, and any position it opens carries this
tick's timestamp and is therefore never among the positions
exit-evaluated at this tick. -/
theorem exit_eval_precedes_entry (cfg : GridConfig) (st : SimState) (t : Tick)
    (hprev : ∀ p ∈ st.positions, p.entryTime < t.timestamp) :
    exitEvaluated cfg (mkSnapshot st t) t.timestamp st = st.positions.reverse ∧
    (∀ p ∈ exitEvaluated cfg (mkSnapshot st t) t.timestamp st,
      p.entryTime < t.timestamp) ∧
    (∀ p ∈ (processTick cfg st t).positions, p ∉ st.positions →
      p.entryTime = t.timestamp) ∧
    (∀ p ∈ (processTick cfg st t).positions, p.entryTime = t.timestamp →
      p ∉ exitEvaluated cfg (mkSnapshot st t) t.timestamp st) := by
  have heval := exitEvaluated_eq_reverse cfg (mkSnapshot st t) t.timestamp st
  refine ⟨heval, ?_, processTick_new_position cfg st t, ?_⟩
  · intro p hp
    rw [heval, List.mem_reverse] at hp
    exact hprev p hp
  · intro p _ hts hmem
    rw [heval, List.mem_reverse] at hmem
    exact absurd hts (ne_of_lt (hprev p hmem))

/-- C8 (witness): the statement at an empty ledger and the first tick. -/
theorem exit_eval_precedes_entry_witness :
    (∀ p ∈ initState.positions, p.entryTime < (0 : ℚ)) ∧
    (exitEvaluated {} (mkSnapshot initState ⟨0, 100, 0, 0, 0, 0, true⟩) 0 initState =
        initState.positions.reverse ∧
      (∀ p ∈ exitEvaluated {} (mkSnapshot initState ⟨0, 100, 0, 0, 0, 0, true⟩) 0 initState,
        p.entryTime < (0 : ℚ)) ∧
      (∀ p ∈ (processTick {} initState ⟨0, 100, 0, 0, 0, 0, true⟩).positions,
        p ∉ initState.positions → p.entryTime = (0 : ℚ)) ∧
      (∀ p ∈ (processTick {} initState ⟨0, 100, 0, 0, 0, 0, true⟩).positions,
        p.entryTime = (0 : ℚ) →
          p ∉ exitEvaluated {} (mkSnapshot initState ⟨0, 100, 0, 0, 0, 0, true⟩) 0 initState)) :=
  ⟨by simp [initState],
    exit_eval_precedes_entry {} initState ⟨0, 100, 0, 0, 0, 0, true⟩ (by simp [initState])⟩

/-! ### Capital non-negativity (C10) -/

theorem executeSell_capinv (cfg : GridConfig) (st : SimState) (snap : Snapshot)
    (ts : ℚ) (r : ExitReason) (idx : ℕ)
    (hfee0 : 0 ≤ cfg.feeRate) (hfee100 : cfg.feeRate ≤ 100)
    (hp : 0 ≤ snap.currentPrice) (hinv : CapInv st) :
    CapInv ((executeSell cfg st snap ts r idx).2) := by
  unfold executeSell
  split
  · exact hinv
  · rename_i hguard
    have hidx : idx < st.positions.length := by
      push_neg at hguard
      omega
    have hmem : st.positions.getD idx default ∈ st.positions := by
      rw [List.getD_eq_getElem?_getD, List.getElem?_eq_getElem hidx]
      exact List.getElem_mem _
    have hq : 0 ≤ (st.positions.getD idx default).quantity := hinv.2 _ hmem
    constructor
    · have hqp : 0 ≤ (st.positions.getD idx default).quantity * snap.currentPrice :=
        mul_nonneg hq hp
      have hfle : (st.positions.getD idx default).quantity * snap.currentPrice *
          (cfg.feeRate / 100) ≤
          (st.positions.getD idx default).quantity * snap.currentPrice * 1 :=
        mul_le_mul_of_nonneg_left (by linarith) hqp
      have := hinv.1
      dsimp only
      linarith
    · intro p hpmem
      exact hinv.2 p ((List.eraseIdx_sublist _ _).subset hpmem)

theorem executeBuy_capinv (cfg : GridConfig) (st : SimState) (snap : Snapshot)
    (ts : ℚ) (hfee0 : 0 ≤ cfg.feeRate) (hfee100 : cfg.feeRate ≤ 100)
    (htrade : 0 ≤ cfg.tradeAmount) (hp : 0 ≤ snap.currentPrice) (hinv : CapInv st) :
    CapInv (executeBuy cfg st snap ts) := by
  have hamt0 : 0 ≤ min st.capital (cfg.tradeAmount / (cfg.maxPositions : ℚ)) :=
    le_min hinv.1 (div_nonneg htrade (Nat.cast_nonneg _))
  have hfee : min st.capital (cfg.tradeAmount / (cfg.maxPositions : ℚ)) *
      (cfg.feeRate / 100) ≤
      min st.capital (cfg.tradeAmount / (cfg.maxPositions : ℚ)) * 1 :=
    mul_le_mul_of_nonneg_left (by linarith) hamt0
  constructor
  · have hle : min st.capital (cfg.tradeAmount / (cfg.maxPositions : ℚ)) ≤ st.capital :=
      min_le_left _ _
    show 0 ≤ st.capital - min st.capital (cfg.tradeAmount / (cfg.maxPositions : ℚ))
    linarith
  · intro p hpmem
    rcases List.mem_append.mp hpmem with hmem | hmem
    · exact hinv.2 p hmem
    · rw [List.mem_singleton.mp hmem]
      exact div_nonneg (by linarith) hp

theorem exitSweepGo_capinv (cfg : GridConfig) (snap : Snapshot) (ts : ℚ)
    (hfee0 : 0 ≤ cfg.feeRate) (hfee100 : cfg.feeRate ≤ 100)
    (hp : 0 ≤ snap.currentPrice) : ∀ (i : ℕ) (st : SimState), CapInv st →
    CapInv ((exitSweepGo cfg snap ts i st).1) := by
  intro i
  induction i with
  | zero => intro st h; exact h
  | succ i ih =>
    intro st h
    rw [exitSweepGo]
    cases hg : st.positions[i]? with
    | none => exact ih st h
    | some pos =>
      dsimp only
      cases hc : checkExitConditions cfg st.grid pos snap (ts - pos.entryTime) with
      | none => exact ih st h
      | some kr =>
        exact ih _ (executeSell_capinv cfg st snap ts kr.2 i hfee0 hfee100 hp h)

theorem canTrade_capinv (cfg : GridConfig) (st : SimState) (ts : ℚ)
    (hinv : CapInv st) : CapInv ((canTrade cfg st ts).2) := by
  have h := canTrade_snd_fields cfg st ts
  constructor
  · rw [h.2.1]
    exact hinv.1
  · rw [h.1]
    exact hinv.2

theorem processTick_capinv (cfg : GridConfig) (st : SimState) (t : Tick)
    (hfee0 : 0 ≤ cfg.feeRate) (hfee100 : cfg.feeRate ≤ 100)
    (htrade : 0 ≤ cfg.tradeAmount) (hp : 0 ≤ t.price) (hinv : CapInv st) :
    CapInv (processTick cfg st t) := by
  unfold processTick
  split
  · exact hinv
  split
  · exact hinv
  dsimp only
  have hps : 0 ≤ (mkSnapshot st t).currentPrice := hp
  have h1 : CapInv (exitSweep cfg (mkSnapshot st t) t.timestamp st) :=
    exitSweepGo_capinv cfg (mkSnapshot st t) t.timestamp hfee0 hfee100 hps _ st hinv
  have h2 : CapInv ((canTrade cfg (exitSweep cfg (mkSnapshot st t) t.timestamp st)
      t.timestamp).2) := canTrade_capinv cfg _ _ h1
  have h3 : CapInv ({ (canTrade cfg (exitSweep cfg (mkSnapshot st t) t.timestamp st)
      t.timestamp).2 with grid := (checkEntryConditions cfg
        ((canTrade cfg (exitSweep cfg (mkSnapshot st t) t.timestamp st)
          t.timestamp).2).grid (mkSnapshot st t)).2 } : SimState) := h2
  split
  · split
    · exact executeBuy_capinv cfg _ (mkSnapshot st t) t.timestamp hfee0 hfee100 htrade hps h3
    · exact h3
  · exact h2

theorem forceCloseGo_capinv (cfg : GridConfig) (snap : Snapshot) (ts : ℚ)
    (hfee0 : 0 ≤ cfg.feeRate) (hfee100 : cfg.feeRate ≤ 100)
    (hp : 0 ≤ snap.currentPrice) : ∀ (i : ℕ) (st : SimState), CapInv st →
    CapInv (forceCloseGo cfg snap ts i st) := by
  intro i
  induction i with
  | zero => intro st h; exact h
  | succ i ih =>
    intro st h
    rw [forceCloseGo]
    exact ih _ (executeSell_capinv cfg st snap ts .periodEnd i hfee0 hfee100 hp h)

theorem simulate_capinv (cfg : GridConfig) (ticks : List Tick)
    (hfee0 : 0 ≤ cfg.feeRate) (hfee100 : cfg.feeRate ≤ 100)
    (htrade : 0 ≤ cfg.tradeAmount) (hprices : ∀ t ∈ ticks, 0 ≤ t.price) :
    CapInv (simulate cfg ticks) := by
  have : ∀ (ticks : List Tick) (st : SimState), (∀ t ∈ ticks, 0 ≤ t.price) →
      CapInv st → CapInv (ticks.foldl (processTick cfg) st) := by
    intro ticks
    induction ticks with
    | nil => intro st _ h; exact h
    | cons t rest ih =>
      intro st hpr h
      exact ih _ (fun x hx => hpr x (List.mem_cons_of_mem t hx))
        (processTick_capinv cfg st t hfee0 hfee100 htrade
          (hpr t (List.mem_cons_self t rest)) h)
  exact this ticks initState hprices ⟨by norm_num [initState], by simp [initState]⟩

/-- C10: with a fee rate between 0 and 100 percent, a non-negative
configured trade amount and non-negative tick prices, capital never
becomes negative: every buy debits `min(capital, per-position notional)`,
which never exceeds the capital on hand, and every sell credits a
non-negative net amount, so capital stays ≥ 0 through the tick loop
(after any prefix, the tick list being universally quantified) and after
the forced period-end closure. -/
theorem capital_nonneg (cfg : GridConfig) (ticks : List Tick)
    (hfee0 : 0 ≤ cfg.feeRate) (hfee100 : cfg.feeRate ≤ 100)
    (htrade : 0 ≤ cfg.tradeAmount) (hprices : ∀ t ∈ ticks, 0 ≤ t.price) :
    0 ≤ (simulate cfg ticks).capital ∧ 0 ≤ (runBacktest cfg ticks).capital := by
  have hsim := simulate_capinv cfg ticks hfee0 hfee100 htrade hprices
  refine ⟨hsim.1, ?_⟩
  unfold runBacktest
  cases hlast : ticks.getLast? with
  | none => exact hsim.1
  | some t =>
    dsimp only
    split
    · exact hsim.1
    · have htmem : t ∈ ticks := by
        rcases List.mem_getLast?_eq_getLast
            (show t ∈ ticks.getLast? by rw [hlast]; exact rfl) with ⟨hne, heq⟩
        rw [heq]
        exact List.getLast_mem hne
      have hps : 0 ≤ (mkSnapshot (simulate cfg ticks) t).currentPrice := hprices t htmem
      exact (forceCloseGo_capinv cfg _ _ hfee0 hfee100 hps _ _ hsim).1

/-- C10 (witness): the statement at the default configuration on a
single tick at price 100. -/
theorem capital_nonneg_witness :
    (0 : ℚ) ≤ ({} : GridConfig).feeRate ∧ ({} : GridConfig).feeRate ≤ 100 ∧
    (0 : ℚ) ≤ ({} : GridConfig).tradeAmount ∧
    (∀ t ∈ ([⟨0, 100, 0, 0, 0, 0, true⟩] : List Tick), 0 ≤ t.price) ∧
    (0 ≤ (simulate {} [⟨0, 100, 0, 0, 0, 0, true⟩]).capital ∧
      0 ≤ (runBacktest {} [⟨0, 100, 0, 0, 0, 0, true⟩]).capital) :=
  ⟨by show (0 : ℚ) ≤ 1/20; norm_num, by show (1/20 : ℚ) ≤ 100; norm_num,
    by show (0 : ℚ) ≤ 800000; norm_num,
    by intro t ht; rw [List.mem_singleton.mp ht]; norm_num,
    capital_nonneg {} [⟨0, 100, 0, 0, 0, 0, true⟩]
      (by show (0 : ℚ) ≤ 1/20; norm_num) (by show (1/20 : ℚ) ≤ 100; norm_num)
      (by show (0 : ℚ) ≤ 800000; norm_num)
      (by intro t ht; rw [List.mem_singleton.mp ht]; norm_num)⟩

/-! ### Trade time ordering (C4) -/

theorem abs_eval (a : ℚ) : |a| = if a < 0 then -a else a := by
  split_ifs with h
  · exact abs_of_neg h
  · exact abs_of_nonneg (le_of_not_lt h)

theorem executeSell_tradesOk (cfg : GridConfig) (st : SimState) (snap : Snapshot)
    (ts : ℚ) (r : ExitReason) (idx : ℕ) (b : ℚ)
    (hb : PosBound st b) (hts : b ≤ ts) (htr : TradesOk st) :
    TradesOk ((executeSell cfg st snap ts r idx).2) ∧
    PosBound ((executeSell cfg st snap ts r idx).2) b := by
  unfold executeSell
  split
  · exact ⟨htr, hb⟩
  · rename_i hguard
    have hidx : idx < st.positions.length := by
      push_neg at hguard
      omega
    have hmem : st.positions.getD idx default ∈ st.positions := by
      rw [List.getD_eq_getElem?_getD, List.getElem?_eq_getElem hidx]
      exact List.getElem_mem _
    constructor
    · intro tr htrm
      rcases List.mem_append.mp htrm with hm | hm
      · exact htr tr hm
      · rw [List.mem_singleton.mp hm]
        exact ⟨le_trans (hb _ hmem) hts, rfl⟩
    · intro p hp
      exact hb p ((List.eraseIdx_sublist _ _).subset hp)

theorem executeBuy_tradesOk (cfg : GridConfig) (st : SimState) (snap : Snapshot)
    (ts : ℚ) (b : ℚ) (hb : PosBound st b) (hts : b ≤ ts) (htr : TradesOk st) :
    TradesOk (executeBuy cfg st snap ts) ∧
    PosBound (executeBuy cfg st snap ts) ts := by
  constructor
  · intro tr htrm
    exact htr tr htrm
  · intro p hp
    rcases List.mem_append.mp hp with hm | hm
    · exact le_trans (hb p hm) hts
    · rw [List.mem_singleton.mp hm]

theorem exitSweepGo_tradesOk (cfg : GridConfig) (snap : Snapshot) (ts b : ℚ)
    (hts : b ≤ ts) : ∀ (i : ℕ) (st : SimState), PosBound st b → TradesOk st →
    TradesOk ((exitSweepGo cfg snap ts i st).1) ∧
    PosBound ((exitSweepGo cfg snap ts i st).1) b := by
  intro i
  induction i with
  | zero => intro st hb htr; exact ⟨htr, hb⟩
  | succ i ih =>
    intro st hb htr
    rw [exitSweepGo]
    cases hg : st.positions[i]? with
    | none => exact ih st hb htr
    | some pos =>
      dsimp only
      cases hc : checkExitConditions cfg st.grid pos snap (ts - pos.entryTime) with
      | none => exact ih st hb htr
      | some kr =>
        have hsell := executeSell_tradesOk cfg st snap ts kr.2 i b hb hts htr
        exact ih _ hsell.2 hsell.1

theorem canTrade_tradesOk (cfg : GridConfig) (st : SimState) (ts b : ℚ)
    (hb : PosBound st b) (htr : TradesOk st) :
    TradesOk ((canTrade cfg st ts).2) ∧ PosBound ((canTrade cfg st ts).2) b := by
  have h := canTrade_snd_fields cfg st ts
  constructor
  · intro tr htrm
    rw [h.2.2.1] at htrm
    exact htr tr htrm
  · intro p hp
    rw [h.1] at hp
    exact hb p hp

theorem processTick_tradesOk (cfg : GridConfig) (st : SimState) (t : Tick) (b : ℚ)
    (hb : PosBound st b) (hbt : b ≤ t.timestamp) (htr : TradesOk st) :
    TradesOk (processTick cfg st t) ∧
    PosBound (processTick cfg st t) t.timestamp := by
  unfold processTick
  split
  · exact ⟨htr, fun p hp => le_trans (hb p hp) hbt⟩
  split
  · exact ⟨htr, fun p hp => le_trans (hb p hp) hbt⟩
  dsimp only
  have h1 : TradesOk (exitSweep cfg (mkSnapshot st t) t.timestamp st) ∧
      PosBound (exitSweep cfg (mkSnapshot st t) t.timestamp st) b :=
    exitSweepGo_tradesOk cfg (mkSnapshot st t) t.timestamp b hbt
      st.positions.length st hb htr
  have h2 := canTrade_tradesOk cfg (exitSweep cfg (mkSnapshot st t) t.timestamp st)
    t.timestamp b h1.2 h1.1
  have h3 : TradesOk ({ (canTrade cfg (exitSweep cfg (mkSnapshot st t) t.timestamp st)
      t.timestamp).2 with grid := (checkEntryConditions cfg
        ((canTrade cfg (exitSweep cfg (mkSnapshot st t) t.timestamp st)
          t.timestamp).2).grid (mkSnapshot st t)).2 } : SimState) := h2.1
  have h4 : PosBound ({ (canTrade cfg (exitSweep cfg (mkSnapshot st t) t.timestamp st)
      t.timestamp).2 with grid := (checkEntryConditions cfg
        ((canTrade cfg (exitSweep cfg (mkSnapshot st t) t.timestamp st)
          t.timestamp).2).grid (mkSnapshot st t)).2 } : SimState) b := h2.2
  split
  · split
    · exact executeBuy_tradesOk cfg _ (mkSnapshot st t) t.timestamp b h4 hbt h3
    · exact ⟨h3, fun p hp => le_trans (h4 p hp) hbt⟩
  · exact ⟨h2.1, fun p hp => le_trans (h2.2 p hp) hbt⟩

theorem lastTsD_cons (b : ℚ) (t : Tick) (rest : List Tick) :
    lastTsD b (t :: rest) = lastTsD t.timestamp rest := by
  cases rest with
  | nil => rfl
  | cons r rs =>
    unfold lastTsD
    rw [List.getLast?_cons_cons]
    cases h : (r :: rs).getLast? with
    | none => simp at h
    | some x => rfl

theorem simulate_tradesOk (cfg : GridConfig) :
    ∀ (ticks : List Tick) (st : SimState) (b : ℚ), PosBound st b → TradesOk st →
    (∀ t ∈ ticks, b ≤ t.timestamp) →
    ticks.Pairwise (fun a c => a.timestamp ≤ c.timestamp) →
    TradesOk (ticks.foldl (processTick cfg) st) ∧
    PosBound (ticks.foldl (processTick cfg) st) (lastTsD b ticks) := by
  intro ticks
  induction ticks with
  | nil => intro st b hb htr _ _; exact ⟨htr, hb⟩
  | cons t rest ih =>
    intro st b hb htr hge hpair
    have hbt : b ≤ t.timestamp := hge t (List.mem_cons_self t rest)
    have hstep := processTick_tradesOk cfg st t b hb hbt htr
    have hrest := (List.pairwise_cons.mp hpair).1
    rw [lastTsD_cons]
    exact ih (processTick cfg st t) t.timestamp hstep.2 hstep.1 hrest
      (List.pairwise_cons.mp hpair).2

theorem forceCloseGo_tradesOk (cfg : GridConfig) (snap : Snapshot) (ts : ℚ) :
    ∀ (i : ℕ) (st : SimState), PosBound st ts → TradesOk st →
    TradesOk (forceCloseGo cfg snap ts i st) := by
  intro i
  induction i with
  | zero => intro st _ htr; exact htr
  | succ i ih =>
    intro st hb htr
    rw [forceCloseGo]
    have hsell := executeSell_tradesOk cfg st snap ts .periodEnd i ts hb (le_refl ts) htr
    exact ih _ hsell.2 hsell.1

/-- C4 (amended): when the tick timestamps are monotone (as the sorted,
deduplicated candle index guarantees), every closed trade — the forced
period-end closures included — has `entry_time ≤ exit_time` and a
recorded holding time equal to `exit_time − entry_time` in minutes.
The inequality cannot be strict in general: the counterexample run shows
a position opened at the final tick force-closed at the same timestamp. -/
theorem trade_times_spec (cfg : GridConfig) (ticks : List Tick)
    (hpair : ticks.Pairwise (fun a c => a.timestamp ≤ c.timestamp)) :
    ∀ tr ∈ (runBacktest cfg ticks).trades,
      tr.entryTime ≤ tr.timestamp ∧ tr.holdingTime = tr.timestamp - tr.entryTime := by
  cases ticks with
  | nil =>
    intro tr htr
    simp [runBacktest, simulate, initState] at htr
  | cons t0 rest =>
    have hge : ∀ x ∈ t0 :: rest, t0.timestamp ≤ x.timestamp := by
      intro x hx
      rcases List.mem_cons.mp hx with hx | hx
      · rw [hx]
      · exact (List.pairwise_cons.mp hpair).1 x hx
    have hb0 : PosBound initState t0.timestamp := by
      intro p hp
      simp [initState] at hp
    have ht0 : TradesOk initState := by
      intro tr htr
      simp [initState] at htr
    have hsim := simulate_tradesOk cfg (t0 :: rest) initState t0.timestamp hb0 ht0 hge hpair
    unfold runBacktest
    cases hlast : (t0 :: rest).getLast? with
    | none => simp at hlast
    | some tl =>
      dsimp only
      split
      · exact fun tr htr => hsim.1 tr htr
      · have hlastTs : lastTsD t0.timestamp (t0 :: rest) = tl.timestamp := by
          unfold lastTsD
          rw [hlast]
        have hbL := hsim.2
        rw [hlastTs] at hbL
        exact fun tr htr =>
          forceCloseGo_tradesOk cfg _ tl.timestamp _ _ hbL hsim.1 tr htr

theorem none_eq_some_iff {α : Type} (a : α) : ((none : Option α) = some a) = False := by
  simp

theorem cons_eq_nil_iff {α : Type} (a : α) (l : List α) : ((a :: l) = []) = False := by
  simp

/-- C4 (counterexample): a run whose entry fires at the final tick.  On
the single flat tick at time 0 a grid entry opens a position, and the
forced period-end closure sells it at the same timestamp: the recorded
trade has `entry_time = exit_time` (holding time 0), refuting the strict
`entry_time < exit_time` claim. -/
theorem trade_times_counterexample :
    (runBacktest c4cfg [c4tick]).trades =
      [⟨0, 0, 100, 100, -1999/15, -1/20, 0, .periodEnd⟩] ∧
    ¬ (∀ tr ∈ (runBacktest c4cfg [c4tick]).trades, tr.entryTime < tr.timestamp) := by
  have hr5 : List.range 5 = [0, 1, 2, 3, 4] := rfl
  have h1 : processTick c4cfg initState c4tick = c4st1 := by
    norm_num [processTick, isTradingHours, mkSnapshot, exitSweep, exitSweepGo, canTrade,
      dateOf, checkEntryConditions, checkBBEntryCondition, shouldResetGrid, initializeGrid,
      rawLevels, levelAt, hr5, sortLe, insertLe, getNearestGridLevel, nearestPair, abs_eval,
      min_def, executeBuy, c4cfg, c4tick, c4st1, initState, none_eq_some_iff]
  have h2 : simulate c4cfg [c4tick] = c4st1 := by
    simp only [simulate, List.foldl_cons, List.foldl_nil]
    exact h1
  have h3 : (runBacktest c4cfg [c4tick]).trades =
      [⟨0, 0, 100, 100, -1999/15, -1/20, 0, .periodEnd⟩] := by
    unfold runBacktest
    rw [h2, show ([c4tick].getLast? = some c4tick) from rfl]
    norm_num [c4st1, c4tick, c4cfg, mkSnapshot, forceCloseGo, executeSell, cons_eq_nil_iff]
  refine ⟨h3, ?_⟩
  intro hall
  have hlt := hall ⟨0, 0, 100, 100, -1999/15, -1/20, 0, .periodEnd⟩
    (by rw [h3]; exact List.mem_singleton_self _)
  exact absurd hlt (lt_irrefl (0 : ℚ))

/-- C4 (witness): the amended statement on the single-tick run whose one
trade is a forced period-end closure. -/
theorem trade_times_spec_witness :
    ([c4tick].Pairwise (fun a c => a.timestamp ≤ c.timestamp)) ∧
    (∀ tr ∈ (runBacktest c4cfg [c4tick]).trades,
      tr.entryTime ≤ tr.timestamp ∧ tr.holdingTime = tr.timestamp - tr.entryTime) :=
  ⟨List.pairwise_singleton _ _, trade_times_spec c4cfg [c4tick] (List.pairwise_singleton _ _)⟩

end UpbitGrid
